import Mathlib

/-!
Verification of the pingit telemetry engine against its specification.

The definitions below are a shallow embedding of the Python sources:
  - `src/pingit.py`   : the prober (`TargetStats`, the per-probe step of
    `PingService.ping_target`)
  - `src/webserver.py`: the collector (timestamp normalization, trend
    downsampling, jitter, the metrics cache, and the statistics report
    ingestion endpoint).

Python floats are modelled as exact rationals (`ℚ`); Python's
`round(x, 2)` is modelled as decimal rounding half-to-even of the exact
value (the binary-float representation error of CPython's round is not
modelled; no value appearing in a theorem below sits on a tie or a
representation boundary).  Machine integers do not overflow in Python,
so counters are `ℕ`/`ℤ`.
-/

/-- Rounding half-to-even to an integer, the tie-breaking rule of Python's
builtin `round`. -/
def roundHalfEven (q : ℚ) : ℤ :=
  let f := Int.floor q
  let frac := q - f
  if frac < 1/2 then f
  else if 1/2 < frac then f + 1
  else if f % 2 = 0 then f else f + 1

/-- Python's `round(x, 2)`: round to two decimal places, ties to even. -/
def round2 (q : ℚ) : ℚ := (roundHalfEven (100 * q) : ℚ) / 100

/-- Python truthiness of an `Optional[float]`: `None` and `0.0` are falsy. -/
def pyTruthy (o : Option ℚ) : Bool :=
  match o with
  | none => false
  | some q => if q = 0 then false else true

/-- Python `min` over a list (`None` when the list is empty, where the
source guards with an `if`). -/
def listMin : List ℚ → Option ℚ
  | [] => none
  | x :: xs => some (xs.foldl min x)

/-- Python `max` over a list. -/
def listMax : List ℚ → Option ℚ
  | [] => none
  | x :: xs => some (xs.foldl max x)

/-! ## src/pingit.py : TargetStats and the per-probe step -/

/-- State of `TargetStats` (src/pingit.py lines 48-59).  `last_status`
mirrors the Python convention: `none` = unknown, `some 1` = up,
`some 0` = down. -/
structure TargetStats where
  target_name : String
  host : String
  total_pings : ℕ
  successful_pings : ℕ
  failed_pings : ℕ
  last_status : Option ℤ
  response_times : List ℚ
  ping_iteration : ℕ
deriving DecidableEq

/-- Constructor `TargetStats.__init__`. -/
def TargetStats.init (name hostAddr : String) : TargetStats :=
  ⟨name, hostAddr, 0, 0, 0, none, [], 0⟩

/-- Method `TargetStats.add_ping` (src/pingit.py lines 61-71).  A response
time is appended only on success and only when truthy (`if response_time:`),
so `None` and `0.0` are not recorded. -/
def TargetStats.add_ping (st : TargetStats) (success : Bool)
    (response_time : Option ℚ) : TargetStats :=
  let st1 := { st with total_pings := st.total_pings + 1,
                       ping_iteration := st.ping_iteration + 1 }
  if success then
    { st1 with successful_pings := st1.successful_pings + 1,
               response_times :=
                 if pyTruthy response_time then
                   st1.response_times ++ [response_time.getD 0]
                 else st1.response_times }
  else
    { st1 with failed_pings := st1.failed_pings + 1 }

/-- Shape of the dict returned by `TargetStats.get_statistics`, also the
JSON body POSTed to `/api/report/statistics`. -/
structure StatsReport where
  target_name : String
  host : String
  total_pings : ℕ
  successful_pings : ℕ
  failed_pings : ℕ
  success_rate : ℚ
  avg_response_time : Option ℚ
  min_response_time : Option ℚ
  max_response_time : Option ℚ
  last_status : Option ℤ
deriving DecidableEq

/-- The pattern `round(v, 2) if v else None` applied to an optional float:
`None` stays `None`, a zero value becomes `None`, otherwise round to two
decimals. -/
def pyOptRound2 (o : Option ℚ) : Option ℚ :=
  match o with
  | none => none
  | some q => if q = 0 then none else some (round2 q)

/-- Method `TargetStats.get_statistics` (src/pingit.py lines 73-91). -/
def TargetStats.get_statistics (st : TargetStats) : StatsReport :=
  let success_rate : ℚ :=
    if 0 < st.total_pings then
      (st.successful_pings : ℚ) / (st.total_pings : ℚ) * 100
    else 0
  let avg_rt : Option ℚ :=
    if st.response_times = [] then none
    else some (st.response_times.sum / (st.response_times.length : ℚ))
  ⟨st.target_name, st.host, st.total_pings, st.successful_pings,
   st.failed_pings, round2 success_rate, pyOptRound2 avg_rt,
   pyOptRound2 (listMin st.response_times),
   pyOptRound2 (listMax st.response_times), st.last_status⟩

/-- Method `TargetStats.reset_iteration` (src/pingit.py lines 93-99). -/
def TargetStats.reset_iteration (st : TargetStats) : TargetStats :=
  { st with ping_iteration := 0, total_pings := 0, successful_pings := 0,
            failed_pings := 0, response_times := [] }

/-- Result of one probe step: the new per-target state, whether a
disconnect event was emitted, and the statistics report if one was
emitted. -/
structure StepOut where
  stats : TargetStats
  disconnected : Bool
  report : Option StatsReport
deriving DecidableEq

/-- The statistics-tracking tail of `PingService.ping_target`
(src/pingit.py lines 332-351), given the outcome of the probe:
`add_ping`, then the disconnect check `last_status != 0 and
current_status == 0`, then the unconditional status update, then the
report trigger `ping_iteration >= report_interval` followed by
`reset_iteration`. -/
def pingStep (report_interval : ℕ) (st : TargetStats) (success : Bool)
    (response_time : Option ℚ) : StepOut :=
  let st1 := st.add_ping success response_time
  let current_status : ℤ := if success then 1 else 0
  let disc : Bool := decide (st1.last_status ≠ some 0) &&
                     decide (current_status = 0)
  let st2 := { st1 with last_status := some current_status }
  if report_interval ≤ st2.ping_iteration then
    ⟨st2.reset_iteration, disc, some st2.get_statistics⟩
  else
    ⟨st2, disc, none⟩

/-- Folding `pingStep` over a sequence of probe outcomes, collecting the
per-step disconnect flags and the emitted reports in order. -/
def pingRun (report_interval : ℕ) (st : TargetStats) :
    List (Bool × Option ℚ) → TargetStats × List Bool × List StatsReport
  | [] => (st, [], [])
  | (s, rt) :: rest =>
    let out := pingStep report_interval st s rt
    let next := pingRun report_interval out.stats rest
    (next.1, out.disconnected :: next.2.1,
     match out.report with
     | some r => r :: next.2.2
     | none => next.2.2)

/-- Number of maximal runs of consecutive `down` results in a sequence of
probe outcomes (`true` = success).  The auxiliary flag records whether the
previous result was down; the initial state (status unknown) counts as
not-down. -/
def downRunsAux : Bool → List Bool → ℕ
  | _, [] => 0
  | prevDown, s :: rest =>
    (if !s && !prevDown then 1 else 0) + downRunsAux (!s) rest

/-- Number of maximal down-runs starting from the unknown status. -/
def downRuns (successes : List Bool) : ℕ := downRunsAux false successes

/-- An arbitrary interleaving of the two mutators of `TargetStats`:
probe updates (`add_ping`) and report-triggered resets
(`reset_iteration`). -/
inductive StatsOp where
  | ping (success : Bool) (response_time : Option ℚ)
  | reset

/-- Apply one mutator. -/
def applyStatsOp (st : TargetStats) : StatsOp → TargetStats
  | .ping s rt => st.add_ping s rt
  | .reset => st.reset_iteration

/-! ## Supporting lemmas about the probe step -/

lemma add_ping_last_status (st : TargetStats) (s : Bool) (rt : Option ℚ) :
    (st.add_ping s rt).last_status = st.last_status := by
  unfold TargetStats.add_ping
  dsimp only
  split <;> rfl

lemma add_ping_total (st : TargetStats) (s : Bool) (rt : Option ℚ) :
    (st.add_ping s rt).total_pings = st.total_pings + 1 := by
  unfold TargetStats.add_ping
  dsimp only
  split <;> rfl

lemma add_ping_iteration (st : TargetStats) (s : Bool) (rt : Option ℚ) :
    (st.add_ping s rt).ping_iteration = st.ping_iteration + 1 := by
  unfold TargetStats.add_ping
  dsimp only
  split <;> rfl

lemma pingStep_disconnected (ri : ℕ) (st : TargetStats) (s : Bool)
    (rt : Option ℚ) :
    (pingStep ri st s rt).disconnected =
      (decide (st.last_status ≠ some 0) && !s) := by
  unfold pingStep
  dsimp only
  rw [add_ping_last_status]
  cases s <;> split <;> simp

lemma pingStep_last_status (ri : ℕ) (st : TargetStats) (s : Bool)
    (rt : Option ℚ) :
    (pingStep ri st s rt).stats.last_status = some (if s then 1 else 0) := by
  unfold pingStep TargetStats.reset_iteration
  dsimp only
  split <;> rfl

lemma pingRun_count_disc (ri : ℕ) (st : TargetStats)
    (ps : List (Bool × Option ℚ)) :
    ((pingRun ri st ps).2.1).count true =
      downRunsAux (decide (st.last_status = some 0)) (ps.map Prod.fst) := by
  induction ps generalizing st with
  | nil => simp [pingRun, downRunsAux]
  | cons hd tl ih =>
    obtain ⟨s, rt⟩ := hd
    have hcount :
        (pingRun ri st ((s, rt) :: tl)).2.1 =
          (pingStep ri st s rt).disconnected ::
            (pingRun ri (pingStep ri st s rt).stats tl).2.1 := by
      simp [pingRun]
    rw [hcount, List.count_cons, ih, pingStep_last_status,
      pingStep_disconnected]
    simp only [List.map_cons, downRunsAux]
    cases s <;>
      cases hprev : decide (st.last_status = some 0) <;>
        simp_all [Nat.add_comm]

/-- C2: a disconnect event is emitted on a probe result exactly when
`last_status != down` and the current status is down; over any probe
sequence from the initial (unknown) state the number of emitted
disconnects equals the number of maximal runs of consecutive down
results; the sequence `[up, down, down, up, down]` emits exactly 2. -/
theorem disconnect_edge_trigger_once_per_down_run :
    (∀ (ri : ℕ) (st : TargetStats) (s : Bool) (rt : Option ℚ),
      (pingStep ri st s rt).disconnected = true ↔
        (st.last_status ≠ some 0 ∧ s = false)) ∧
    (∀ (ri : ℕ) (name hostAddr : String) (ps : List (Bool × Option ℚ)),
      ((pingRun ri (TargetStats.init name hostAddr) ps).2.1).count true =
        downRuns (ps.map Prod.fst)) ∧
    ((pingRun 10 (TargetStats.init "t" "h")
        [(true, none), (false, none), (false, none), (true, none),
         (false, none)]).2.1).count true = 2 := by
  refine ⟨?_, ?_, ?_⟩
  · intro ri st s rt
    rw [pingStep_disconnected]
    cases s <;> simp
  · intro ri name hostAddr ps
    rw [pingRun_count_disc]
    simp [TargetStats.init, downRuns]
  · norm_num [pingRun, pingStep, TargetStats.add_ping, TargetStats.init,
      pyTruthy, List.count_cons]

/-- C3: for every sequence of probe updates and report-triggered resets,
in any interleaving, `total_pings = successful_pings + failed_pings`
holds after every operation (every intermediate state is the fold over a
prefix of the operation list). -/
theorem total_eq_successful_add_failed :
    ∀ (name hostAddr : String) (ops : List StatsOp),
      (ops.foldl applyStatsOp (TargetStats.init name hostAddr)).total_pings =
        (ops.foldl applyStatsOp
            (TargetStats.init name hostAddr)).successful_pings +
          (ops.foldl applyStatsOp
            (TargetStats.init name hostAddr)).failed_pings := by
  have key : ∀ (ops : List StatsOp) (st : TargetStats),
      st.total_pings = st.successful_pings + st.failed_pings →
      (ops.foldl applyStatsOp st).total_pings =
        (ops.foldl applyStatsOp st).successful_pings +
          (ops.foldl applyStatsOp st).failed_pings := by
    intro ops
    induction ops with
    | nil => intro st h; simpa using h
    | cons op rest ih =>
      intro st h
      rw [List.foldl_cons]
      apply ih
      cases op with
      | ping s rt =>
        cases s <;>
          simp [applyStatsOp, TargetStats.add_ping] <;> omega
      | reset => simp [applyStatsOp, TargetStats.reset_iteration]
  intro name hostAddr ops
  exact key ops _ (by simp [TargetStats.init])

/-- C9: `reset_iteration` clears only the counters, the sample list and
the cycle counter, leaving `last_status` and the target identity
untouched; consequently a target whose `last_status` is down emits no
disconnect on its next down probe, whether or not that step also crosses
a report boundary. -/
theorem reset_iteration_frame_no_repeat_disconnect :
    (∀ st : TargetStats,
      st.reset_iteration.last_status = st.last_status ∧
      st.reset_iteration.target_name = st.target_name ∧
      st.reset_iteration.host = st.host ∧
      st.reset_iteration.total_pings = 0 ∧
      st.reset_iteration.successful_pings = 0 ∧
      st.reset_iteration.failed_pings = 0 ∧
      st.reset_iteration.response_times = [] ∧
      st.reset_iteration.ping_iteration = 0) ∧
    (∀ (ri : ℕ) (st : TargetStats) (rt : Option ℚ),
      st.last_status = some 0 →
      (pingStep ri st false rt).disconnected = false ∧
      (pingStep ri st false rt).stats.last_status = some 0) := by
  constructor
  · intro st
    simp [TargetStats.reset_iteration]
  · intro ri st rt h
    constructor
    · rw [pingStep_disconnected, h]
      simp
    · rw [pingStep_last_status]
      simp

/-- Witness for C9: a concrete state that is already down and whose next
down probe crosses the report boundary (iteration 4 with interval 3)
emits no disconnect. -/
theorem reset_iteration_frame_witness :
    ((⟨"t", "h", 3, 1, 2, some 0, [], 3⟩ : TargetStats).last_status =
      some 0) ∧
    (pingStep 3 ⟨"t", "h", 3, 1, 2, some 0, [], 3⟩ false none).disconnected =
      false :=
  ⟨rfl, (reset_iteration_frame_no_repeat_disconnect.2 3
    ⟨"t", "h", 3, 1, 2, some 0, [], 3⟩ none rfl).1⟩

/-! ## Supporting lemmas for the report contents (C4) -/

lemma foldl_min_pos : ∀ (xs : List ℚ) (a : ℚ), 0 < a →
    (∀ x ∈ xs, 0 < x) → 0 < xs.foldl min a
  | [], a, ha, _ => ha
  | y :: ys, a, ha, h => by
    rw [List.foldl_cons]
    exact foldl_min_pos ys (min a y)
      (lt_min ha (h y (List.mem_cons_self y ys)))
      fun x hx => h x (List.mem_cons_of_mem _ hx)

lemma foldl_max_pos : ∀ (xs : List ℚ) (a : ℚ), 0 < a →
    0 < xs.foldl max a
  | [], _, ha => ha
  | y :: ys, a, ha => by
    rw [List.foldl_cons]
    exact foldl_max_pos ys (max a y) (lt_max_of_lt_left ha)

lemma add_ping_response_times (st : TargetStats) (s : Bool) (rt : Option ℚ) :
    (st.add_ping s rt).response_times =
      if s && pyTruthy rt then st.response_times ++ [rt.getD 0]
      else st.response_times := by
  unfold TargetStats.add_ping
  dsimp only
  cases s <;> simp

lemma add_ping_response_times_pos (st : TargetStats) (s : Bool)
    (rt : Option ℚ) (hpos : ∀ x ∈ st.response_times, 0 < x)
    (hrt : ∀ x, rt = some x → 0 ≤ x) :
    ∀ x ∈ (st.add_ping s rt).response_times, 0 < x := by
  intro x hx
  rw [add_ping_response_times] at hx
  by_cases hc : s && pyTruthy rt
  · rw [if_pos hc] at hx
    rcases List.mem_append.1 hx with h1 | h2
    · exact hpos x h1
    · have hx2 : x = rt.getD 0 := by simpa using h2
      cases rt with
      | none => simp [pyTruthy] at hc
      | some q =>
        have hq0 : q ≠ 0 := by
          intro h0
          simp [pyTruthy, h0] at hc
        have hq : (0:ℚ) ≤ q := hrt q rfl
        rw [hx2]
        simpa using lt_of_le_of_ne hq (Ne.symm hq0)
  · rw [if_neg hc] at hx
    exact hpos x hx

lemma pyOptRound2_of_pos (o : Option ℚ) (h : ∀ x, o = some x → 0 < x) :
    pyOptRound2 o = Option.map round2 o := by
  cases o with
  | none => rfl
  | some q =>
    have : q ≠ 0 := ne_of_gt (h q rfl)
    simp [pyOptRound2, this]

lemma get_statistics_fields (st : TargetStats)
    (hpos : ∀ x ∈ st.response_times, 0 < x) (htot : 0 < st.total_pings) :
    st.get_statistics.success_rate =
      round2 ((st.successful_pings : ℚ) / (st.total_pings : ℚ) * 100) ∧
    st.get_statistics.avg_response_time = Option.map round2
      (if st.response_times = [] then none
       else some (st.response_times.sum / (st.response_times.length : ℚ))) ∧
    st.get_statistics.min_response_time =
      Option.map round2 (listMin st.response_times) ∧
    st.get_statistics.max_response_time =
      Option.map round2 (listMax st.response_times) := by
  unfold TargetStats.get_statistics
  dsimp only
  refine ⟨by rw [if_pos htot], ?_, ?_, ?_⟩
  · apply pyOptRound2_of_pos
    intro x hx
    by_cases hnil : st.response_times = []
    · rw [if_pos hnil] at hx
      cases hx
    · rw [if_neg hnil] at hx
      have hx2 : x = st.response_times.sum / (st.response_times.length : ℚ) :=
        (Option.some.inj hx).symm
      rw [hx2]
      apply div_pos (List.sum_pos _ hpos hnil)
      exact_mod_cast List.length_pos.2 hnil
  · apply pyOptRound2_of_pos
    intro x hx
    cases hresp : st.response_times with
    | nil => rw [hresp] at hx; cases hx
    | cons y ys =>
      rw [hresp] at hx
      have hx2 : x = ys.foldl min y := by simpa [listMin] using hx.symm
      rw [hx2]
      exact foldl_min_pos ys y
        (hpos y (by rw [hresp]; exact List.mem_cons_self y ys))
        fun z hz => hpos z (by rw [hresp]; exact List.mem_cons_of_mem _ hz)
  · apply pyOptRound2_of_pos
    intro x hx
    cases hresp : st.response_times with
    | nil => rw [hresp] at hx; cases hx
    | cons y ys =>
      rw [hresp] at hx
      have hx2 : x = ys.foldl max y := by simpa [listMax] using hx.symm
      rw [hx2]
      exact foldl_max_pos ys y
        (hpos y (by rw [hresp]; exact List.mem_cons_self y ys))

lemma pingStep_report (ri : ℕ) (st : TargetStats) (s : Bool)
    (rt : Option ℚ) :
    (pingStep ri st s rt).report =
      if ri ≤ st.ping_iteration + 1 then
        some ({ st.add_ping s rt with
                last_status := some (if s then (1:ℤ) else 0) }
              : TargetStats).get_statistics
      else none := by
  unfold pingStep
  dsimp only
  simp only [add_ping_iteration]
  split <;> rfl

lemma pingStep_stats (ri : ℕ) (st : TargetStats) (s : Bool)
    (rt : Option ℚ) :
    (pingStep ri st s rt).stats =
      if ri ≤ st.ping_iteration + 1 then
        ({ st.add_ping s rt with
           last_status := some (if s then (1:ℤ) else 0) }
          : TargetStats).reset_iteration
      else { st.add_ping s rt with
             last_status := some (if s then (1:ℤ) else 0) } := by
  unfold pingStep
  dsimp only
  simp only [add_ping_iteration]
  split <;> rfl

/-- C4 (amended): a statistics report is emitted exactly when the cycle
counter reaches the reporting interval; the report carries
`success_rate = successful/total*100` rounded to two decimals and
avg/min/max over the collected samples, each rounded to two decimals
(`none` exactly when there are no samples, given positive response
times); and afterwards the counters, samples and cycle counter are
zeroed, so the next report draws only on later probes. -/
theorem report_trigger_rounded_then_reset :
    ∀ (ri : ℕ) (st : TargetStats) (s : Bool) (rt : Option ℚ),
      (∀ x ∈ st.response_times, 0 < x) →
      (∀ x, rt = some x → 0 ≤ x) →
      (((pingStep ri st s rt).report.isSome = true) ↔
        ri ≤ st.ping_iteration + 1) ∧
      (∀ r, (pingStep ri st s rt).report = some r →
        r.total_pings = (st.add_ping s rt).total_pings ∧
        r.successful_pings = (st.add_ping s rt).successful_pings ∧
        r.failed_pings = (st.add_ping s rt).failed_pings ∧
        r.success_rate =
          round2 (((st.add_ping s rt).successful_pings : ℚ) /
            ((st.add_ping s rt).total_pings : ℚ) * 100) ∧
        r.avg_response_time = Option.map round2
          (if (st.add_ping s rt).response_times = [] then none
           else some ((st.add_ping s rt).response_times.sum /
             ((st.add_ping s rt).response_times.length : ℚ))) ∧
        r.min_response_time =
          Option.map round2 (listMin (st.add_ping s rt).response_times) ∧
        r.max_response_time =
          Option.map round2 (listMax (st.add_ping s rt).response_times)) ∧
      ((pingStep ri st s rt).report.isSome = true →
        (pingStep ri st s rt).stats.total_pings = 0 ∧
        (pingStep ri st s rt).stats.successful_pings = 0 ∧
        (pingStep ri st s rt).stats.failed_pings = 0 ∧
        (pingStep ri st s rt).stats.response_times = [] ∧
        (pingStep ri st s rt).stats.ping_iteration = 0) := by
  intro ri st s rt hpos hrt
  have htot : (st.add_ping s rt).total_pings = st.total_pings + 1 :=
    add_ping_total st s rt
  have hpos2 : ∀ x ∈ (st.add_ping s rt).response_times, 0 < x :=
    add_ping_response_times_pos st s rt hpos hrt
  refine ⟨?_, ?_, ?_⟩
  · rw [pingStep_report]
    by_cases h : ri ≤ st.ping_iteration + 1 <;> simp [h]
  · intro r hr
    rw [pingStep_report] at hr
    by_cases h : ri ≤ st.ping_iteration + 1
    · rw [if_pos h] at hr
      have hr2 : ({ st.add_ping s rt with
          last_status := some (if s then (1:ℤ) else 0) }
            : TargetStats).get_statistics = r := Option.some.inj hr
      have hfields := get_statistics_fields
        ({ st.add_ping s rt with
           last_status := some (if s then (1:ℤ) else 0) } : TargetStats)
        hpos2
        (by show 0 < (st.add_ping s rt).total_pings
            rw [htot]
            exact Nat.succ_pos _)
      rw [hr2] at hfields
      exact ⟨(hr2 ▸ rfl : r.total_pings = _),
             (hr2 ▸ rfl : r.successful_pings = _),
             (hr2 ▸ rfl : r.failed_pings = _),
             hfields.1, hfields.2.1, hfields.2.2.1, hfields.2.2.2⟩
    · rw [if_neg h] at hr
      cases hr
  · intro hx
    rw [pingStep_report] at hx
    rw [pingStep_stats]
    by_cases h : ri ≤ st.ping_iteration + 1
    · rw [if_pos h]
      simp [TargetStats.reset_iteration]
    · rw [if_neg h] at hx
      simp at hx

/-- Witness for C4: with interval 1, one successful probe from the
initial state emits a report and leaves the counters zeroed. -/
theorem report_trigger_witness :
    (pingStep 1 (TargetStats.init "t" "h") true (some 5)).report.isSome =
      true ∧
    (pingStep 1 (TargetStats.init "t" "h") true (some 5)).stats.total_pings =
      0 :=
  have happ := report_trigger_rounded_then_reset 1 (TargetStats.init "t" "h")
    true (some 5) (by simp [TargetStats.init])
    (by intro x hx; rw [← Option.some.inj hx]; norm_num)
  have hsome : (pingStep 1 (TargetStats.init "t" "h") true
      (some 5)).report.isSome = true :=
    happ.1.mpr (by simp [TargetStats.init])
  ⟨hsome, (happ.2.2 hsome).1⟩

/-- Counterexample to C4 as stated: with interval 3 and probe outcomes
[up, down, down], the emitted report has `success_rate = 33.33` (the
code rounds to two decimals), which differs from the exact
`successful/total*100 = 100/3`. -/
theorem report_success_rate_not_exact :
    ((pingRun 3 (TargetStats.init "t" "h")
        [(true, none), (false, none), (false, none)]).2.2 =
      [⟨"t", "h", 3, 1, 2, 3333/100, none, none, none, some 0⟩]) ∧
    (3333/100 : ℚ) ≠ (1 : ℚ) / 3 * 100 := by
  constructor
  · norm_num [pingRun, pingStep, TargetStats.add_ping, TargetStats.init,
      TargetStats.get_statistics, TargetStats.reset_iteration, pyTruthy,
      pyOptRound2, listMin, listMax, round2, roundHalfEven]
  · norm_num

/-! ## src/webserver.py : timestamp normalization -/

/-- A JSON / Python value as dispatched on by `normalize_timestamp_ms`
(src/webserver.py lines 125-150): `None`, `int`, `float`, `str`, or any
other type. -/
inductive PyVal where
  | vnone
  | vint (n : ℤ)
  | vfloat (q : ℚ)
  | vstr (s : String)
  | vother

/-- Python `int()` applied to a float: truncation toward zero. -/
def truncQ (q : ℚ) : ℤ := if 0 ≤ q then Int.floor q else Int.ceil q

/-- Function `normalize_timestamp_ms` (src/webserver.py lines 125-150).
The two library parsers are passed as parameters: `parseNumber` models
`float(value)` on a string (`none` = `ValueError`), `parseIso` models
`datetime.fromisoformat(value).timestamp()` in epoch seconds (`none` =
a parse failure); the function then truncates `secs * 1000`. -/
def normalize_timestamp_ms (parseNumber : String → Option ℚ)
    (parseIso : String → Option ℚ) : PyVal → ℤ
  | .vnone => 0
  | .vint n => n
  | .vfloat q => truncQ q
  | .vstr s =>
    match parseNumber s with
    | some q => truncQ q
    | none =>
      match parseIso s with
      | some secs => truncQ (secs * 1000)
      | none => 0
  | .vother => 0

/-- C8: normalization applies its rules in order: null maps to 0, a
numeric value is truncated to an integer, a string is first parsed as a
number (truncated, taken as epoch-ms), on failure parsed as ISO-8601 and
converted to epoch-ms, and on failure of both maps to 0. -/
theorem normalize_timestamp_rules :
    ∀ (parseNumber parseIso : String → Option ℚ),
      (normalize_timestamp_ms parseNumber parseIso .vnone = 0) ∧
      (∀ n : ℤ,
        normalize_timestamp_ms parseNumber parseIso (.vint n) = n) ∧
      (∀ q : ℚ,
        normalize_timestamp_ms parseNumber parseIso (.vfloat q) =
          truncQ q) ∧
      (∀ s q, parseNumber s = some q →
        normalize_timestamp_ms parseNumber parseIso (.vstr s) =
          truncQ q) ∧
      (∀ s secs, parseNumber s = none → parseIso s = some secs →
        normalize_timestamp_ms parseNumber parseIso (.vstr s) =
          truncQ (secs * 1000)) ∧
      (∀ s, parseNumber s = none → parseIso s = none →
        normalize_timestamp_ms parseNumber parseIso (.vstr s) = 0) := by
  intro pn piso
  refine ⟨rfl, fun n => rfl, fun q => rfl, ?_, ?_, ?_⟩
  · intro s q h
    simp [normalize_timestamp_ms, h]
  · intro s secs h1 h2
    simp [normalize_timestamp_ms, h1, h2]
  · intro s h1 h2
    simp [normalize_timestamp_ms, h1, h2]

/-- Witness for C8: with a number parser that fails and an ISO parser
returning 1.5 seconds, a string normalizes to 1500 epoch-ms. -/
theorem normalize_timestamp_witness :
    normalize_timestamp_ms (fun _ => none) (fun _ => some (3/2))
      (.vstr "x") = 1500 := by
  rw [(normalize_timestamp_rules (fun _ => none)
    (fun _ => some (3/2))).2.2.2.2.1 "x" (3/2) rfl rfl]
  norm_num [truncQ]

/-! ## src/webserver.py : jitter -/

open Classical in
/-- Rounding half-to-even on the reals (Python's `round` applied to the
exact value of `stdev`). -/
noncomputable def roundHalfEvenR (x : ℝ) : ℤ :=
  let f := Int.floor x
  let frac := x - f
  if frac < 1/2 then f
  else if 1/2 < frac then f + 1
  else if f % 2 = 0 then f else f + 1

/-- Python `round(x, 2)` on a real value. -/
noncomputable def round2R (x : ℝ) : ℝ := (roundHalfEvenR (100 * x) : ℝ) / 100

/-- The variance computed by Python's `statistics.stdev`: sum of squared
deviations from the mean over `n - 1` (Bessel-corrected sample
variance, computed exactly over fractions by the library). -/
def sampleVariance (xs : List ℚ) : ℚ :=
  let n : ℚ := xs.length
  let m : ℚ := xs.sum / n
  ((xs.map fun x => (x - m)^2).sum) / (n - 1)

/-- Python `statistics.stdev`: square root of the sample variance. -/
noncomputable def stdev (xs : List ℚ) : ℝ :=
  Real.sqrt ((sampleVariance xs : ℚ) : ℝ)

/-- Function `calculate_jitter` (src/webserver.py lines 32-39):
`round(stdev(response_times), 2)`, with 0.0 for fewer than two values
(the guard; the `except` branch is unreachable once the guard holds). -/
noncomputable def calculate_jitter (xs : List ℚ) : ℝ :=
  if xs.length < 2 then 0 else round2R (stdev xs)

/-- Modelled from the spec: the population standard deviation (sum of
squared deviations over `n`, not `n - 1`) of a list of per-cycle
averages, for comparison against the implementation's jitter. -/
noncomputable def popStdDev (xs : List ℚ) : ℝ :=
  let n : ℚ := xs.length
  let m : ℚ := xs.sum / n
  Real.sqrt ((((xs.map fun x => (x - m)^2).sum / n : ℚ) : ℝ))

lemma sum_sq_dev (xs : List ℚ) (m : ℚ) :
    (xs.map fun x => (x - m)^2).sum =
      (xs.map fun x => x^2).sum - 2*m*xs.sum + xs.length * m^2 := by
  induction xs with
  | nil => simp
  | cons y ys ih =>
    simp only [List.map_cons, List.sum_cons, ih, List.length_cons]
    push_cast
    ring

lemma sampleVariance_computational (xs : List ℚ) (h : 2 ≤ xs.length) :
    sampleVariance xs =
      ((xs.length : ℚ) * (xs.map fun x => x^2).sum - xs.sum^2) /
        ((xs.length : ℚ) * ((xs.length : ℚ) - 1)) := by
  have hn : (xs.length : ℚ) ≠ 0 := by
    have : 0 < xs.length := by omega
    positivity
  have hn1 : (xs.length : ℚ) - 1 ≠ 0 := by
    have h2 : (2 : ℚ) ≤ (xs.length : ℚ) := by exact_mod_cast h
    intro hc
    rw [sub_eq_zero] at hc
    rw [hc] at h2
    norm_num at h2
  unfold sampleVariance
  dsimp only
  rw [sum_sq_dev]
  field_simp
  ring

/-- Counterexample to C5 as stated: for the per-cycle averages
[0, 2, 4] the implementation reports jitter 2 (the sample standard
deviation), while the population standard deviation is sqrt(8/3) < 2. -/
theorem jitter_not_population_stdev :
    calculate_jitter [0, 2, 4] = 2 ∧ popStdDev [0, 2, 4] ≠ 2 := by
  constructor
  · have hvar : sampleVariance [0, 2, 4] = 4 := by
      norm_num [sampleVariance]
    have hsd : stdev [0, 2, 4] = 2 := by
      rw [stdev, hvar]
      rw [show (((4:ℚ):ℝ)) = 2^2 by norm_num]
      exact Real.sqrt_sq (by norm_num)
    rw [calculate_jitter, if_neg (by norm_num), hsd, round2R]
    rw [show (100:ℝ) * 2 = ((200:ℤ):ℝ) by norm_num]
    rw [show roundHalfEvenR ((200:ℤ):ℝ) = 200 by
      unfold roundHalfEvenR
      rw [Int.floor_intCast]
      norm_num]
    norm_num
  · have hpop : popStdDev [0, 2, 4] = Real.sqrt (((8/3 : ℚ) : ℝ)) := by
      unfold popStdDev
      norm_num
    rw [hpop]
    intro hc
    have hge : (0:ℝ) ≤ ((8/3 : ℚ) : ℝ) := by norm_num
    have h2 : ((8/3 : ℚ) : ℝ) = 4 := by
      rw [← Real.sq_sqrt hge, hc]
      norm_num
    norm_num at h2

/-- C5 (amended): the reported jitter equals the sample standard
deviation (squared deviations from the mean over n-1) of the per-cycle
averages, rounded to two decimals, and equals 0 when the group has
fewer than 2 cycles. -/
theorem jitter_sample_stdev_rounded :
    ∀ xs : List ℚ,
      (xs.length < 2 → calculate_jitter xs = 0) ∧
      (2 ≤ xs.length →
        calculate_jitter xs = round2R (Real.sqrt
          (((((xs.length : ℚ) * (xs.map fun x => x^2).sum - xs.sum^2) /
            ((xs.length : ℚ) * ((xs.length : ℚ) - 1))) : ℚ) : ℝ))) := by
  intro xs
  constructor
  · intro h
    rw [calculate_jitter, if_pos h]
  · intro h
    rw [calculate_jitter, if_neg (by omega), stdev,
      sampleVariance_computational xs h]

/-- Witness for C5 (amended), at the per-cycle averages [0, 2, 4]. -/
theorem jitter_sample_witness :
    2 ≤ ([0, 2, 4] : List ℚ).length ∧
    calculate_jitter [0, 2, 4] = round2R (Real.sqrt
      ((((([0, 2, 4] : List ℚ).length : ℚ) *
          (([0, 2, 4] : List ℚ).map fun x => x^2).sum -
          ([0, 2, 4] : List ℚ).sum^2) /
        ((([0, 2, 4] : List ℚ).length : ℚ) *
          ((([0, 2, 4] : List ℚ).length : ℚ) - 1)) : ℚ) : ℝ)) :=
  ⟨by norm_num, (jitter_sample_stdev_rounded [0, 2, 4]).2 (by norm_num)⟩

/-! ## src/webserver.py : trend line and downsampling -/

/-- A chart point as the dicts `points: [{x: timestamp_ms, y:
response_time}]` (src/webserver.py line 74). -/
structure Point where
  x : ℚ
  y : ℚ
deriving DecidableEq

/-- Result of the least-squares fit. -/
structure TrendLine where
  slope : ℚ
  intercept : ℚ
deriving DecidableEq

/-- Function `calculate_trend_line` (src/webserver.py lines 43-61):
ordinary least squares; `none` for fewer than 2 points or a zero
denominator. -/
def calculate_trend_line (points : List Point) : Option TrendLine :=
  if points.length < 2 then none
  else
    let n : ℚ := points.length
    let sum_x := (points.map fun p => p.x).sum
    let sum_y := (points.map fun p => p.y).sum
    let sum_xy := (points.map fun p => p.x * p.y).sum
    let sum_x2 := (points.map fun p => p.x * p.x).sum
    let denominator := n * sum_x2 - sum_x * sum_x
    if denominator = 0 then none
    else
      let slope := (n * sum_xy - sum_x * sum_y) / denominator
      some ⟨slope, (sum_y - slope * sum_x) / n⟩

/-- Function `get_trend_value` (src/webserver.py lines 64-66). -/
def get_trend_value (x : ℚ) (trend : TrendLine) : ℚ :=
  trend.slope * x + trend.intercept

/-- Default point for in-range list indexing (every index selected below
is `< points.length`). -/
def dummyPoint : Point := ⟨0, 0⟩

/-- Function `filter_points_by_trend` (src/webserver.py lines 69-122):
keep `baseline_points` evenly spaced indices (`int(i * interval)`, plus
index 0 and the last index), union all interior outlier indices whose
deviation from the trend exceeds the threshold, and return the selected
points in index order.  (Python would raise `ZeroDivisionError` for
`baseline_points = 0` on the paths that compute `interval`; the theorems
below only use positive `baseline_points` on those paths.) -/
def filter_points_by_trend (points : List Point) (baseline_points : ℕ)
    (outlier_threshold : ℚ) : List Point :=
  if points.length < 2 then points
  else if points.length ≤ baseline_points then points
  else
    match calculate_trend_line points with
    | none => points
    | some trend =>
      let interval : ℚ := (points.length : ℚ) / (baseline_points : ℚ)
      let baseline_indices : Finset ℕ :=
        (((Finset.range baseline_points).image
            fun i : ℕ => Int.toNat (Int.floor ((i : ℚ) * interval))).filter
          fun idx => idx < points.length) ∪ {0, points.length - 1}
      let outlier_indices : Finset ℕ :=
        (Finset.Ico 1 (points.length - 1)).filter
          fun i => outlier_threshold <
            |(points.getD i dummyPoint).y -
              get_trend_value (points.getD i dummyPoint).x trend|
      let selected := baseline_indices ∪ outlier_indices
      (selected.sort (· ≤ ·)).map fun i => points.getD i dummyPoint

lemma filter_points_identity (b : ℕ) (t : ℚ) (ps : List Point)
    (hle : ps.length ≤ b) : filter_points_by_trend ps b t = ps := by
  unfold filter_points_by_trend
  by_cases h2 : ps.length < 2
  · rw [if_pos h2]
  · rw [if_neg h2, if_pos hle]

lemma getD_mem_of_lt (ps : List Point) (i : ℕ) (hi : i < ps.length) :
    ps.getD i dummyPoint ∈ ps := by
  rw [List.getD_eq_getElem ps dummyPoint hi]
  exact List.getElem_mem hi

lemma mem_filter_of_selected (ps : List Point) (b : ℕ) (t : ℚ)
    (tr : TrendLine) (h2 : ¬ ps.length < 2) (hgt : ¬ ps.length ≤ b)
    (htr : calculate_trend_line ps = some tr) (k : ℕ)
    (hk : k ∈ ((((Finset.range b).image
        fun i : ℕ => Int.toNat (Int.floor ((i : ℚ) *
          ((ps.length : ℚ) / (b : ℚ))))).filter
        fun idx => idx < ps.length) ∪ {0, ps.length - 1}) ∪
      ((Finset.Ico 1 (ps.length - 1)).filter
        fun i => t < |(ps.getD i dummyPoint).y -
          get_trend_value (ps.getD i dummyPoint).x tr|)) :
    ps.getD k dummyPoint ∈ filter_points_by_trend ps b t := by
  unfold filter_points_by_trend
  rw [if_neg h2, if_neg hgt, htr]
  exact List.mem_map.2 ⟨k, (Finset.mem_sort _).2 hk, rfl⟩

/-- C6: downsampling returns the input unchanged whenever its length is
at most `baseline_points` (hence a second pass with the same parameters
is the identity once the output length is at most `baseline_points`),
and for every non-empty input the first and last input points appear in
the output. -/
theorem downsample_identity_and_endpoints :
    ∀ (b : ℕ) (t : ℚ) (ps : List Point),
      (ps.length ≤ b → filter_points_by_trend ps b t = ps) ∧
      ((filter_points_by_trend ps b t).length ≤ b →
        filter_points_by_trend (filter_points_by_trend ps b t) b t =
          filter_points_by_trend ps b t) ∧
      (ps ≠ [] →
        ps.getD 0 dummyPoint ∈ filter_points_by_trend ps b t ∧
        ps.getD (ps.length - 1) dummyPoint ∈
          filter_points_by_trend ps b t) := by
  intro b t ps
  refine ⟨filter_points_identity b t ps, ?_, ?_⟩
  · intro hlen
    exact filter_points_identity b t _ hlen
  · intro hne
    have hlen0 : 0 < ps.length := List.length_pos.2 hne
    have hmem : ∀ i, i < ps.length →
        ps.getD i dummyPoint ∈ ps := getD_mem_of_lt ps
    by_cases h2 : ps.length < 2
    · unfold filter_points_by_trend
      rw [if_pos h2]
      exact ⟨hmem 0 hlen0, hmem _ (by omega)⟩
    · by_cases hleb : ps.length ≤ b
      · unfold filter_points_by_trend
        rw [if_neg h2, if_pos hleb]
        exact ⟨hmem 0 hlen0, hmem _ (by omega)⟩
      · cases htr : calculate_trend_line ps with
        | none =>
          unfold filter_points_by_trend
          rw [if_neg h2, if_neg hleb, htr]
          exact ⟨hmem 0 hlen0, hmem _ (by omega)⟩
        | some tr =>
          refine ⟨mem_filter_of_selected ps b t tr h2 hleb htr 0 ?_,
                  mem_filter_of_selected ps b t tr h2 hleb htr
                    (ps.length - 1) ?_⟩
          · exact Finset.mem_union_left _
              (Finset.mem_union_right _ (by simp))
          · exact Finset.mem_union_left _
              (Finset.mem_union_right _ (by simp))

/-- Witness for C6: a three-point series with baseline 5 is returned
unchanged, and its first and last points appear in the output. -/
theorem downsample_identity_witness :
    filter_points_by_trend [⟨0, 1⟩, ⟨1, 2⟩, ⟨2, 3⟩] 5 0 =
      [⟨0, 1⟩, ⟨1, 2⟩, ⟨2, 3⟩] ∧
    (⟨0, 1⟩ : Point) ∈ filter_points_by_trend [⟨0, 1⟩, ⟨1, 2⟩, ⟨2, 3⟩] 5 0 ∧
    (⟨2, 3⟩ : Point) ∈ filter_points_by_trend [⟨0, 1⟩, ⟨1, 2⟩, ⟨2, 3⟩] 5 0 :=
  have h := downsample_identity_and_endpoints 5 0 [⟨0, 1⟩, ⟨1, 2⟩, ⟨2, 3⟩]
  have hend := h.2.2 (by simp)
  ⟨h.1 (by norm_num), by simpa using hend.1, by simpa using hend.2⟩

lemma outlier_mem_filter (b : ℕ) (t : ℚ) (ps : List Point) (i : ℕ)
    (tr : TrendLine) (hb : 0 < b) (hlen : b < ps.length)
    (htr : calculate_trend_line ps = some tr) (hi1 : 1 ≤ i)
    (hi2 : i < ps.length - 1)
    (hdev : t < |(ps.getD i dummyPoint).y -
      get_trend_value (ps.getD i dummyPoint).x tr|) :
    ps.getD i dummyPoint ∈ filter_points_by_trend ps b t := by
  have h2 : ¬ ps.length < 2 := by omega
  have hleb : ¬ ps.length ≤ b := by omega
  apply mem_filter_of_selected ps b t tr h2 hleb htr i
  apply Finset.mem_union_right
  exact Finset.mem_filter.2 ⟨Finset.mem_Ico.2 ⟨hi1, hi2⟩, hdev⟩

lemma range_map_sum_id (n : ℕ) :
    ((List.range n).map fun i : ℕ => (i : ℚ)).sum = ((n:ℚ)^2 - n) / 2 := by
  induction n with
  | zero => simp
  | succ m ih =>
    rw [List.range_succ, List.map_append, List.sum_append, ih]
    simp only [List.map_cons, List.map_nil, List.sum_cons, List.sum_nil,
      add_zero]
    push_cast
    ring

lemma range_map_sum_sq (n : ℕ) :
    ((List.range n).map fun i : ℕ => (i : ℚ) * (i : ℚ)).sum =
      (2*(n:ℚ)^3 - 3*(n:ℚ)^2 + n) / 6 := by
  induction n with
  | zero => simp
  | succ m ih =>
    rw [List.range_succ, List.map_append, List.sum_append, ih]
    simp only [List.map_cons, List.map_nil, List.sum_cons, List.sum_nil,
      add_zero]
    push_cast
    ring

lemma range_map_sum_ite (n k : ℕ) (a c : ℚ) :
    ((List.range n).map fun i : ℕ => if i = k then a else c).sum =
      (n:ℚ) * c + (if k < n then a - c else 0) := by
  induction n with
  | zero => simp
  | succ m ih =>
    rw [List.range_succ, List.map_append, List.sum_append, ih]
    simp only [List.map_cons, List.map_nil, List.sum_cons, List.sum_nil,
      add_zero]
    by_cases hm : m = k
    · subst hm
      rw [if_pos rfl, if_neg (lt_irrefl m), if_pos (Nat.lt_succ_self m)]
      push_cast
      ring
    · rw [if_neg hm]
      by_cases hk : k < m
      · rw [if_pos hk, if_pos (by omega)]
        push_cast
        ring
      · rw [if_neg hk, if_neg (by omega)]
        push_cast
        ring

lemma range_map_sum_mul_ite (n k : ℕ) (a c : ℚ) :
    ((List.range n).map fun i : ℕ =>
        (i:ℚ) * (if i = k then a else c)).sum =
      c * (((n:ℚ)^2 - n)/2) + (if k < n then (k:ℚ) * (a - c) else 0) := by
  induction n with
  | zero => simp
  | succ m ih =>
    rw [List.range_succ, List.map_append, List.sum_append, ih]
    simp only [List.map_cons, List.map_nil, List.sum_cons, List.sum_nil,
      add_zero]
    by_cases hm : m = k
    · subst hm
      rw [if_pos rfl, if_neg (lt_irrefl m), if_pos (Nat.lt_succ_self m)]
      push_cast
      ring
    · rw [if_neg hm]
      by_cases hk : k < m
      · rw [if_pos hk, if_pos (by omega)]
        push_cast
        ring
      · rw [if_neg hk, if_neg (by omega)]
        push_cast
        ring

/-- The concrete series of the spec's downsampling test: 100 evenly
spaced points with flat value 10 and a single +50 spike at index 50. -/
def spikePoints : List Point :=
  (List.range 100).map fun i : ℕ => ⟨(i : ℚ), if i = 50 then 60 else 10⟩

lemma spikePoints_length : spikePoints.length = 100 := by
  simp [spikePoints]

lemma spikePoints_sum_x : (spikePoints.map fun p => p.x).sum = 4950 := by
  unfold spikePoints
  rw [List.map_map]
  rw [show ((fun p : Point => p.x) ∘ fun i : ℕ =>
      (⟨(i:ℚ), if i = 50 then 60 else 10⟩ : Point)) =
    fun i : ℕ => (i : ℚ) from rfl]
  rw [range_map_sum_id]
  norm_num

lemma spikePoints_sum_y : (spikePoints.map fun p => p.y).sum = 1050 := by
  unfold spikePoints
  rw [List.map_map]
  rw [show ((fun p : Point => p.y) ∘ fun i : ℕ =>
      (⟨(i:ℚ), if i = 50 then 60 else 10⟩ : Point)) =
    fun i : ℕ => if i = 50 then (60:ℚ) else 10 from rfl]
  rw [range_map_sum_ite]
  norm_num

lemma spikePoints_sum_xy :
    (spikePoints.map fun p => p.x * p.y).sum = 52000 := by
  unfold spikePoints
  rw [List.map_map]
  rw [show ((fun p : Point => p.x * p.y) ∘ fun i : ℕ =>
      (⟨(i:ℚ), if i = 50 then 60 else 10⟩ : Point)) =
    fun i : ℕ => (i:ℚ) * (if i = 50 then (60:ℚ) else 10) from rfl]
  rw [range_map_sum_mul_ite]
  norm_num

lemma spikePoints_sum_x2 :
    (spikePoints.map fun p => p.x * p.x).sum = 328350 := by
  unfold spikePoints
  rw [List.map_map]
  rw [show ((fun p : Point => p.x * p.x) ∘ fun i : ℕ =>
      (⟨(i:ℚ), if i = 50 then 60 else 10⟩ : Point)) =
    fun i : ℕ => (i:ℚ) * (i:ℚ) from rfl]
  rw [range_map_sum_sq]
  norm_num

lemma spikePoints_trend :
    calculate_trend_line spikePoints = some ⟨1/3333, 11649/1111⟩ := by
  simp only [calculate_trend_line, spikePoints_length, spikePoints_sum_x,
    spikePoints_sum_y, spikePoints_sum_xy, spikePoints_sum_x2]
  norm_num

lemma spikePoints_getD50 : spikePoints.getD 50 dummyPoint = ⟨50, 60⟩ := by
  unfold spikePoints
  rw [List.getD_eq_getElem _ _ (by simp)]
  simp

/-- C7: for downsampled inputs (length above the baseline, trend line
defined), every interior point whose absolute deviation from the fitted
trend exceeds the threshold appears in the output; in particular the
+50 spike at index 50 of 100 evenly spaced points survives
`filter_points_by_trend` with baseline 20 and threshold 5. -/
theorem trend_outliers_included :
    (∀ (b : ℕ) (t : ℚ) (ps : List Point) (i : ℕ) (tr : TrendLine),
      0 < b → b < ps.length → calculate_trend_line ps = some tr →
      1 ≤ i → i < ps.length - 1 →
      t < |(ps.getD i dummyPoint).y -
        get_trend_value (ps.getD i dummyPoint).x tr| →
      ps.getD i dummyPoint ∈ filter_points_by_trend ps b t) ∧
    (⟨50, 60⟩ : Point) ∈ filter_points_by_trend spikePoints 20 5 := by
  constructor
  · exact outlier_mem_filter
  · have hdev : (5:ℚ) < |(spikePoints.getD 50 dummyPoint).y -
        get_trend_value (spikePoints.getD 50 dummyPoint).x
          ⟨1/3333, 11649/1111⟩| := by
      rw [spikePoints_getD50]
      rw [show |(60:ℚ) - get_trend_value 50 ⟨1/3333, 11649/1111⟩| =
        164983/3333 by norm_num [get_trend_value, abs_of_pos]]
      norm_num
    have h := outlier_mem_filter 20 5 spikePoints 50 ⟨1/3333, 11649/1111⟩
      (by norm_num) (by rw [spikePoints_length]; norm_num)
      spikePoints_trend (by norm_num)
      (by rw [spikePoints_length]; norm_num) hdev
    rwa [spikePoints_getD50] at h

/-- Witness for C7, applying the general statement at the spike
series. -/
theorem trend_outliers_witness :
    (⟨50, 60⟩ : Point) ∈ filter_points_by_trend spikePoints 20 5 := by
  have hdev : (5:ℚ) < |(spikePoints.getD 50 dummyPoint).y -
      get_trend_value (spikePoints.getD 50 dummyPoint).x
        ⟨1/3333, 11649/1111⟩| := by
    rw [spikePoints_getD50]
    rw [show |(60:ℚ) - get_trend_value 50 ⟨1/3333, 11649/1111⟩| =
      164983/3333 by norm_num [get_trend_value, abs_of_pos]]
    norm_num
  have h := trend_outliers_included.1 20 5 spikePoints 50
    ⟨1/3333, 11649/1111⟩ (by norm_num)
    (by rw [spikePoints_length]; norm_num) spikePoints_trend
    (by norm_num) (by rw [spikePoints_length]; norm_num) hdev
  rwa [spikePoints_getD50] at h

/-! ## src/webserver.py : metrics cache and statistics ingestion -/

/-- One value of the `MetricsCache.metrics` dict (src/webserver.py lines
194-209): host, recent ping samples, disconnect counter and last
status (`status` may carry a JSON null passed through `update_status`). -/
structure CacheEntry where
  host : String
  ping_times : List ℚ
  disconnect_count : ℕ
  status : Option ℤ
deriving DecidableEq

/-- The `MetricsCache.metrics` dict, as a map from target name to its
entry. -/
def MetricsCache : Type := String → Option CacheEntry

/-- The freshly constructed cache (`self.metrics = {}`). -/
def emptyCache : MetricsCache := fun _ => none

/-- Method `MetricsCache.update_ping_time` (src/webserver.py lines
197-209): create the entry if absent, append the sample, refresh the
host and mark the target up. -/
def update_ping_time (c : MetricsCache) (target_name hostAddr : String)
    (response_time : ℚ) : MetricsCache :=
  fun n =>
    if n = target_name then
      some (match c target_name with
        | none => { host := hostAddr, ping_times := [response_time],
                    disconnect_count := 0, status := some 1 }
        | some e =>
          { e with
            ping_times := e.ping_times ++ [response_time],
            host := hostAddr,
            status := some 1 })
    else c n

/-- Method `MetricsCache.update_status` (src/webserver.py lines
211-222): create the entry with the given status if absent, otherwise
overwrite only the status. -/
def update_status (c : MetricsCache) (target_name hostAddr : String)
    (newStatus : Option ℤ) : MetricsCache :=
  fun n =>
    if n = target_name then
      some (match c target_name with
        | none => { host := hostAddr, ping_times := [],
                    disconnect_count := 0, status := newStatus }
        | some e => { e with status := newStatus })
    else c n

/-- The ping-time gauge of the `/metrics` endpoint (src/webserver.py
lines 1297-1307): for a target with a non-empty sample list, the
average of the cached ping times; no line otherwise. -/
def gaugeValue (c : MetricsCache) (target_name : String) : Option ℚ :=
  match c target_name with
  | none => none
  | some e =>
    if e.ping_times = [] then none
    else some (e.ping_times.sum / (e.ping_times.length : ℚ))

/-- A `/api/report/statistics` request body that passed the
required-field validation (src/webserver.py lines 1356-1360).  For the
optional fields read with `data.get`, the outer `Option` distinguishes
an absent key from a present one; for `avg_response_time` and
`last_status` the inner `Option` carries an explicit JSON null. -/
structure StatsPayload where
  target_name : String
  host : String
  total_pings : ℤ
  successful_pings : ℤ
  failed_pings : ℤ
  success_rate : ℚ
  avg_response_time : Option (Option ℚ)
  min_response_time : Option ℚ
  max_response_time : Option ℚ
  last_status : Option (Option ℤ)

/-- A row of the `ping_statistics` table (src/webserver.py lines
365-380), without the autoincrement id. -/
structure StatRow where
  target_name : String
  host : String
  total_pings : ℤ
  successful_pings : ℤ
  failed_pings : ℤ
  success_rate : ℚ
  avg_response_time : Option ℚ
  min_response_time : Option ℚ
  max_response_time : Option ℚ
  last_status : Option ℤ
  timestamp : ℤ
deriving DecidableEq

/-- Endpoint `report_statistics` (src/webserver.py lines 1333-1410),
for a validated body: read `avg_response_time` (default 0) and
`last_status` (default 1), record the cache sample `avg * 1000` when
avg is truthy, update the cache status, then INSERT the row with the
server clock `now_ms` as timestamp.  A duplicate `(target_name,
timestamp)` violates the UNIQUE constraint; the `except` handler turns
that into a 500 error response, leaving the table unchanged (the cache
updates have already happened).  Returns the new table, the new cache
and the HTTP status. -/
def report_statistics (db : List StatRow) (c : MetricsCache)
    (p : StatsPayload) (now_ms : ℤ) : List StatRow × MetricsCache × ℕ :=
  let avg : Option ℚ :=
    match p.avg_response_time with
    | none => some 0
    | some w => w
  let ls : Option ℤ :=
    match p.last_status with
    | none => some 1
    | some w => w
  let c1 :=
    if pyTruthy avg then
      update_ping_time c p.target_name p.host (avg.getD 0 * 1000)
    else c
  let c2 := update_status c1 p.target_name p.host ls
  let row : StatRow :=
    ⟨p.target_name, p.host, p.total_pings, p.successful_pings,
     p.failed_pings, p.success_rate, avg, p.min_response_time,
     p.max_response_time, ls, now_ms⟩
  if db.any fun r =>
      decide (r.target_name = p.target_name) && decide (r.timestamp = now_ms)
  then (db, c2, 500)
  else (db ++ [row], c2, 201)

/-- C1 (amended): a POST whose `(target_name, timestamp)` pair collides
with a stored row leaves the table unchanged and propagates no
exception, but the caller receives a 500 error response (the handler
catches the IntegrityError and returns the error), not a success. -/
theorem duplicate_statistics_insert_rejected :
    ∀ (db : List StatRow) (c : MetricsCache) (p : StatsPayload)
      (now_ms : ℤ),
      (∃ r ∈ db, r.target_name = p.target_name ∧ r.timestamp = now_ms) →
      (report_statistics db c p now_ms).1 = db ∧
      (report_statistics db c p now_ms).2.2 = 500 := by
  intro db c p now hdup
  have hany : (db.any fun r =>
      decide (r.target_name = p.target_name) &&
      decide (r.timestamp = now)) = true := by
    rcases hdup with ⟨r, hr, h1, h2⟩
    exact List.any_eq_true.2 ⟨r, hr, by simp [h1, h2]⟩
  simp [report_statistics, hany]

/-- Witness for C1 (amended): a concrete duplicate POST. -/
theorem duplicate_statistics_witness :
    (report_statistics
      [⟨"t", "h", 10, 9, 1, 90, some 5, some 1, some 9, some 1, 1000⟩]
      emptyCache
      ⟨"t", "h", 10, 9, 1, 90, some (some 5), some 1, some 9,
        some (some 1)⟩ 1000).1 =
      [⟨"t", "h", 10, 9, 1, 90, some 5, some 1, some 9, some 1, 1000⟩] ∧
    (report_statistics
      [⟨"t", "h", 10, 9, 1, 90, some 5, some 1, some 9, some 1, 1000⟩]
      emptyCache
      ⟨"t", "h", 10, 9, 1, 90, some (some 5), some 1, some 9,
        some (some 1)⟩ 1000).2.2 = 500 :=
  duplicate_statistics_insert_rejected
    [⟨"t", "h", 10, 9, 1, 90, some 5, some 1, some 9, some 1, 1000⟩]
    emptyCache
    ⟨"t", "h", 10, 9, 1, 90, some (some 5), some 1, some 9,
      some (some 1)⟩ 1000
    ⟨⟨"t", "h", 10, 9, 1, 90, some 5, some 1, some 9, some 1, 1000⟩,
      by simp, rfl, rfl⟩

/-- Counterexample to C1 as stated: on a duplicate `(target_name,
timestamp)` the stored row count indeed does not increase and no
exception escapes, but the caller IS given an error response: the
endpoint returns HTTP 500, not a success (201). -/
theorem duplicate_statistics_error_response :
    (report_statistics
      [⟨"t", "h", 10, 9, 1, 90, some 5, some 1, some 9, some 1, 1000⟩]
      emptyCache
      ⟨"t", "h", 10, 9, 1, 90, some (some 5), some 1, some 9,
        some (some 1)⟩ 1000).2.2 = 500 ∧ (500 : ℕ) ≠ 201 :=
  ⟨rfl, by norm_num⟩

lemma report_statistics_cache (db : List StatRow) (c : MetricsCache)
    (p : StatsPayload) (now_ms : ℤ) :
    (report_statistics db c p now_ms).2.1 =
      update_status
        (if pyTruthy (match p.avg_response_time with
            | none => some 0
            | some w => w) then
          update_ping_time c p.target_name p.host
            ((match p.avg_response_time with
              | none => some 0
              | some w => w).getD 0 * 1000)
         else c)
        p.target_name p.host
        (match p.last_status with
         | none => some 1
         | some w => w) := by
  unfold report_statistics
  dsimp only
  split <;> rfl

lemma cache_after_truthy (c : MetricsCache) (t h : String) (w : ℚ)
    (ls : Option ℤ) :
    (update_status (update_ping_time c t h w) t h ls) t =
      some (match c t with
        | none => ⟨h, [w], 0, ls⟩
        | some e0 => ⟨h, e0.ping_times ++ [w], e0.disconnect_count, ls⟩) := by
  cases hct : c t with
  | none => simp [update_status, update_ping_time, hct]
  | some e0 => simp [update_status, update_ping_time, hct]

lemma cache_after_falsy (c : MetricsCache) (t h : String)
    (ls : Option ℤ) :
    (update_status c t h ls) t =
      some (match c t with
        | none => ⟨h, [], 0, ls⟩
        | some e0 => ⟨e0.host, e0.ping_times, e0.disconnect_count, ls⟩) := by
  cases hct : c t with
  | none => simp [update_status, hct]
  | some e0 => simp [update_status, hct]

/-- C10: a report with a truthy `avg_response_time = v` stores `v`
unchanged in the durable row (and returns 201) while the cache sample
appended for the target is `v * 1000` (so the metrics gauge over a
previously empty cache entry shows `v * 1000`); a report whose
`avg_response_time` is absent or 0 records no cache sample at all. -/
theorem avg_response_time_stored_raw_cached_ms :
    (∀ (db : List StatRow) (c : MetricsCache) (p : StatsPayload)
        (now_ms : ℤ) (v : ℚ),
      p.avg_response_time = some (some v) → v ≠ 0 →
      (∀ r ∈ db, ¬(r.target_name = p.target_name ∧ r.timestamp = now_ms)) →
      ((report_statistics db c p now_ms).1 =
        db ++ [⟨p.target_name, p.host, p.total_pings, p.successful_pings,
          p.failed_pings, p.success_rate, some v, p.min_response_time,
          p.max_response_time,
          (match p.last_status with
           | none => some 1
           | some w => w), now_ms⟩] ∧
       (report_statistics db c p now_ms).2.2 = 201) ∧
      (∀ e, (report_statistics db c p now_ms).2.1 p.target_name = some e →
        e.ping_times =
          (match c p.target_name with
           | none => []
           | some e0 => e0.ping_times) ++ [v * 1000]) ∧
      (c p.target_name = none →
        gaugeValue (report_statistics db c p now_ms).2.1 p.target_name =
          some (v * 1000))) ∧
    (∀ (db : List StatRow) (c : MetricsCache) (p : StatsPayload)
        (now_ms : ℤ),
      (p.avg_response_time = none ∨ p.avg_response_time = some (some 0)) →
      (match (report_statistics db c p now_ms).2.1 p.target_name with
       | none => ([] : List ℚ)
       | some e => e.ping_times) =
      (match c p.target_name with
       | none => ([] : List ℚ)
       | some e => e.ping_times)) := by
  constructor
  · intro db c p now v hv hv0 hnodup
    have htr : pyTruthy (some v) = true := by simp [pyTruthy, hv0]
    have hany : (db.any fun r =>
        decide (r.target_name = p.target_name) &&
        decide (r.timestamp = now)) = false := by
      apply List.any_eq_false.mpr
      intro r hr
      simp only [Bool.and_eq_true, decide_eq_true_eq]
      exact fun hcon => hnodup r hr ⟨hcon.1, hcon.2⟩
    have hc2 : (report_statistics db c p now).2.1 =
        update_status (update_ping_time c p.target_name p.host (v * 1000))
          p.target_name p.host
          (match p.last_status with
           | none => some 1
           | some w => w) := by
      rw [report_statistics_cache, hv]
      simp [htr]
    refine ⟨⟨?_, ?_⟩, ?_, ?_⟩
    · simp [report_statistics, hv, htr, hany]
    · simp [report_statistics, hv, htr, hany]
    · intro e he
      rw [hc2, cache_after_truthy] at he
      have he2 := (Option.some.inj he).symm
      cases hct : c p.target_name with
      | none =>
        rw [hct] at he2
        subst he2
        simp
      | some e0 =>
        rw [hct] at he2
        subst he2
        simp
    · intro hct
      rw [hc2]
      unfold gaugeValue
      rw [cache_after_truthy, hct]
      simp
  · intro db c p now hcase
    have hc2 : (report_statistics db c p now).2.1 =
        update_status c p.target_name p.host
          (match p.last_status with
           | none => some 1
           | some w => w) := by
      rw [report_statistics_cache]
      rcases hcase with h | h <;> simp [h, pyTruthy]
    rw [hc2, cache_after_falsy]
    cases hct : c p.target_name <;> rfl

/-- Witness for C10: reporting `avg_response_time = 5` into an empty
cache stores the row (201) and exposes a gauge value of `5 * 1000`. -/
theorem avg_response_time_witness :
    (report_statistics [] emptyCache
      ⟨"t", "h", 10, 9, 1, 90, some (some 5), none, none, none⟩
      1000).2.2 = 201 ∧
    gaugeValue (report_statistics [] emptyCache
      ⟨"t", "h", 10, 9, 1, 90, some (some 5), none, none, none⟩
      1000).2.1 "t" = some (5 * 1000) :=
  have h := avg_response_time_stored_raw_cached_ms.1 [] emptyCache
    ⟨"t", "h", 10, 9, 1, 90, some (some 5), none, none, none⟩
    1000 5 rfl (by norm_num) (by simp)
  ⟨h.1.2, h.2.2 rfl⟩
